import Mathlib

/-!
Verification development for the PotentialField_Engine repository.

Shallow embedding of the trunk engine (`src/potential_field_engine.py`)
and its layer protocol (`src/layers.py`) over exact real arithmetic:
numpy vectors become `List ℝ`, the numpy random generator becomes an
explicit stream of draws, Python object mutation becomes an explicit
heap of state/engine cells, and fallible code returns `Except`.
-/

/-! ## Real vectors (numpy 1-d arrays as lists of reals) -/

/-- `np.zeros(n)`. -/
def zeros (n : ℕ) : List ℝ := List.replicate n 0

/-- Elementwise vector addition (`a + b` on equal-shape numpy arrays). -/
def vadd (a b : List ℝ) : List ℝ := List.zipWith (· + ·) a b

/-- Scalar times vector (`c * v` on a numpy array). -/
def smul (c : ℝ) (v : List ℝ) : List ℝ := v.map (fun x => c * x)

/-- `np.dot(a, b)`. -/
def dot (a b : List ℝ) : ℝ := (List.zipWith (· * ·) a b).sum

/-- Sum of squares of the entries: the squared euclidean norm `|v|²`. -/
def sumSq (l : List ℝ) : ℝ := (l.map (fun x => x ^ 2)).sum

/-! ## RNG — `np.random.Generator` as an explicit stream of draws

The engine only ever calls `rng.standard_normal(shape)`; we model the
generator as the infinite sequence of standard-normal draws it will
produce, together with a cursor. -/

structure RNG where
  seq : ℕ → ℝ
  idx : ℕ

/-- `rng.standard_normal(n)`: the next `n` draws, and the advanced generator. -/
def RNG.standard_normal (r : RNG) (n : ℕ) : List ℝ × RNG :=
  ((List.range n).map (fun k => r.seq (r.idx + k)), ⟨r.seq, r.idx + n⟩)

/-! ## CONFIG.py constants -/

def EPSILON : ℝ := 1e-6

def DT : ℝ := 0.01

/-! ## Force layers (`src/layers.py`, GradientForce / InjectionForce / CallbackForce)

The source's duck-typed layer classes become a closed inductive type;
each Python class is one constructor carrying its `__init__` fields.
A `CallbackForce`'s try/except arity dispatch is resolved at
construction time, so its callback is modelled as a function of `(x, v)`. -/

inductive ForceLayer where
  | GradientForce (potential_func : List ℝ → ℝ)
      (field_func : Option (List ℝ → List ℝ)) (epsilon : ℝ)
  | InjectionForce (injection_func : List ℝ → List ℝ → ℝ → List ℝ)
  | CallbackForce (callback : List ℝ → List ℝ → List ℝ)

/-- `force(x, v, t)` of each layer.  `GradientForce.force` uses the analytic
field function when present, else the central finite difference
`grad[i] = (V(x + ε eᵢ) - V(x - ε eᵢ)) / (2ε)` negated. -/
noncomputable def ForceLayer.force : ForceLayer → List ℝ → List ℝ → ℝ → List ℝ
  | .GradientForce V fOpt eps, x, _v, _t =>
      match fOpt with
      | some g => g x
      | none =>
          let grad := (List.range x.length).map (fun i =>
            (V (x.set i (x.getD i 0 + eps)) - V (x.set i (x.getD i 0 - eps)))
              / (2 * eps))
          grad.map (fun gi => -gi)
  | .InjectionForce I, x, v, t => I x v t
  | .CallbackForce f, x, v, _t => f x v

/-- `potential(x)` of each layer: `V(x)` for a gradient layer, `0` otherwise. -/
def ForceLayer.potential : ForceLayer → List ℝ → ℝ
  | .GradientForce V _ _, x => V x
  | .InjectionForce _, _ => 0
  | .CallbackForce _, _ => 0

/-- `isinstance(fl, GradientForce)`. -/
def ForceLayer.isGradientForce : ForceLayer → Bool
  | .GradientForce _ _ _ => true
  | _ => false

/-- `isinstance(fl, InjectionForce)`. -/
def ForceLayer.isInjectionForce : ForceLayer → Bool
  | .InjectionForce _ => true
  | _ => false

/-! ## Gauge layers (`src/layers.py`, CoriolisGauge / NullGauge) -/

inductive Gauge where
  | CoriolisGauge (omega : ℝ) (axis : ℕ × ℕ)
  | NullGauge

/-- `rotate(v, dt)`: the Coriolis gauge applies the exact 2×2 rotation of
angle `θ = ω·dt` to the components of its axis pair (read from the input
vector before either write, as the source does), the null gauge is the
identity.  In-range indexing `v[i]` is modelled by `getD` (the source
would raise IndexError out of range; the claims only concern in-range
axes). -/
noncomputable def Gauge.rotate : Gauge → List ℝ → ℝ → List ℝ
  | .CoriolisGauge ω ax, v, dt =>
      let θ := ω * dt
      let c := Real.cos θ
      let sn := Real.sin θ
      let vi := v.getD ax.1 0
      let vj := v.getD ax.2 0
      (v.set ax.1 (c * vi - sn * vj)).set ax.2 (sn * vi + c * vj)
  | .NullGauge, v, _ => v

/-- `check_skew()`: structurally `True` for both built-in gauges. -/
def Gauge.check_skew : Gauge → Bool
  | .CoriolisGauge _ _ => true
  | .NullGauge => true

/-- `isinstance(g, NullGauge)`. -/
def Gauge.isNull : Gauge → Bool
  | .NullGauge => true
  | _ => false

/-! ## Thermo layers (`src/layers.py`, LangevinThermo / NullThermo) -/

inductive Thermo where
  | LangevinThermo (gamma : ℝ) (temperature : Option ℝ) (mass : ℝ)
      (noise_sigma_override : ℝ)
  | NullThermo

def Thermo.gamma : Thermo → ℝ
  | .LangevinThermo γ _ _ _ => γ
  | .NullThermo => 0

def Thermo.temperature : Thermo → Option ℝ
  | .LangevinThermo _ T _ _ => T
  | .NullThermo => none

def Thermo.mass : Thermo → ℝ
  | .LangevinThermo _ _ m _ => m
  | .NullThermo => 1

/-- `LangevinThermo.sigma`: the override when positive, else the FDT value
`sqrt(2γT/m)` when a positive temperature is supplied and `γ > 0`, else 0.
`NullThermo.sigma` is the constant 0.  This is the exact-real reading of
the property; it is adequate wherever only a `σ > 0` branch test
consumes it (a float NaN fails such a test exactly as 0 does) —
`sigmaFloat` below keeps the floating-point escape hatches of the same
source expression for the FDT check, which compares its value. -/
noncomputable def Thermo.sigma : Thermo → ℝ
  | .LangevinThermo γ T m σo =>
      if 0 < σo then σo
      else
        match T with
        | some t => if 0 < t ∧ 0 < γ then Real.sqrt (2 * γ * t / m) else 0
        | none => 0
  | .NullThermo => 0

/-- `LangevinThermo.noise_mode`: `"manual"` / `"fdt"` / `"off"` resolved in
the same priority order as `sigma`.  `NullThermo.noise_mode` is `"off"`. -/
noncomputable def Thermo.noise_mode : Thermo → String
  | .LangevinThermo γ T _ σo =>
      if 0 < σo then "manual"
      else
        match T with
        | some t => if 0 < t ∧ 0 < γ then "fdt" else "off"
        | none => "off"
  | .NullThermo => "off"

/-- `ou_step(v, h, rng)`: exact Ornstein–Uhlenbeck propagation.
`decay = exp(-γh)` when `γ > 0` else `1`; when `σ > 0` one standard-normal
draw per component is added with amplitude
`σ·sqrt((1 - exp(-2γh))/(2γ))` for `γ > 0` and `σ·sqrt(h)` for the γ→0
limit (the explicit analytic-limit branch of the source).
`NullThermo.ou_step` is the identity and does not consume the generator. -/
noncomputable def Thermo.ou_step (th : Thermo) (v : List ℝ) (h : ℝ) (rng : RNG) :
    List ℝ × RNG :=
  match th with
  | .NullThermo => (v, rng)
  | .LangevinThermo γ _ _ _ =>
      let σ := th.sigma
      let decay := if 0 < γ then Real.exp (-(γ * h)) else 1
      let v1 := v.map (fun vi => vi * decay)
      if 0 < σ then
        let amp :=
          if 0 < γ then σ * Real.sqrt ((1 - Real.exp (-(2 * γ * h))) / (2 * γ))
          else σ * Real.sqrt h
        let d := rng.standard_normal v.length
        (vadd v1 (d.1.map (fun z => amp * z)), d.2)
      else (v1, rng)

/-- `np.sqrt` on a Python float scalar: NaN — modelled as `none` — for a
negative argument, the exact square root otherwise (rounding is not
modelled). -/
noncomputable def npSqrt (q : ℝ) : Option ℝ :=
  if q < 0 then none else some (Real.sqrt q)

/-- Python float division `a / b`: raises `ZeroDivisionError` when the
divisor is zero. -/
noncomputable def pyDiv (a b : ℝ) : Except String ℝ :=
  if b = 0 then .error "ZeroDivisionError: float division by zero"
  else .ok (a / b)

/-- `abs(a - b) < c` on Python float scalars: a NaN operand (`none`)
propagates through the subtraction and `abs`, and every comparison
against NaN is `False`. -/
noncomputable def fpAbsSubLt (a b : Option ℝ) (c : ℝ) : Bool :=
  match a, b with
  | some x, some y => decide (|x - y| < c)
  | _, _ => false

/-- `LangevinThermo.sigma` with the floating-point escape hatches of the
source expression `float(np.sqrt(2.0 * γ * T / m))` kept:
`ZeroDivisionError` at `m = 0`, NaN (`none`) for a negative radicand.
`NullThermo.sigma` is the constant 0. -/
noncomputable def Thermo.sigmaFloat : Thermo → Except String (Option ℝ)
  | .LangevinThermo γ T m σo =>
      if 0 < σo then .ok (some σo)
      else
        match T with
        | some t =>
            if 0 < t ∧ 0 < γ then (pyDiv (2 * γ * t) m).map npSqrt
            else .ok (some 0)
        | none => .ok (some 0)
  | .NullThermo => .ok (some 0)

/-- `LangevinThermo.check_fdt`: `True` in `"manual"` and `"off"` modes
(early returns, no arithmetic); in `"fdt"` mode it computes
`expected = np.sqrt(2γT/m)` and returns `abs(self.sigma - expected) < 1e-12`
under float semantics: a zero mass raises `ZeroDivisionError` from the
division, and a negative mass makes the radicand negative so both sides
are NaN and the comparison is `False`.  (The source reads
`self._temperature` directly there; mode `"fdt"` guarantees it is
present, so the `none` arm of `t` is unreachable.)
`NullThermo.check_fdt` is `True`. -/
noncomputable def Thermo.check_fdt (th : Thermo) : Except String Bool :=
  match th with
  | .NullThermo => .ok true
  | .LangevinThermo γ T m _ =>
      if th.noise_mode = "manual" then .ok true
      else if th.noise_mode = "off" then .ok true
      else
        let t := match T with | some t => t | none => 0
        match (pyDiv (2 * γ * t) m).map npSqrt with
        | .error e => .error e
        | .ok expected =>
            match th.sigmaFloat with
            | .error e => .error e
            | .ok σv => .ok (fpAbsSubLt σv expected 1e-12)

/-! ## The state container

Modelled from the spec: the `GlobalState` class lives in the external
BrainCore package, not in this repository's sources.  The spec describes
it as an opaque value with an even-length numeric `state_vector` (first
half position, second half velocity), a scalar `energy`, and named
auxiliary extension records the engine writes but never reads;
`copy(deep=False)` is a shallow duplicate of the fields and
`set_extension` stores one record under a name. -/

/-- The record `update` stores under the `"potential_field"` extension key
(`src/potential_field_engine.py`, `new_state.set_extension`).  The
formatted log string is not part of the record. -/
structure PFExtension where
  potential : ℝ
  field : List ℝ
  kinetic_energy : ℝ
  potential_energy : ℝ
  total_energy : ℝ
  time : ℝ
  gamma : ℝ
  noise_sigma : ℝ
  noise_mode : String
  temperature : Option ℝ
  mass : ℝ
  dissipation_power : ℝ
  injection_power : ℝ
  n_force_layers : ℕ
  gauge_type : String
  thermo_type : String

/-- Modelled from the spec: BrainCore's state value — concatenated
position+velocity vector, scalar energy, named auxiliary records. -/
structure GlobalState where
  state_vector : List ℝ
  energy : ℝ
  extensions : String → Option PFExtension

/-- Modelled from the spec: `state.copy(deep=False)` — a shallow duplicate
of the fields (at value level, the same value; the heap embedding below
makes the fresh allocation explicit). -/
def GlobalState.copy (s : GlobalState) : GlobalState := s

/-- Modelled from the spec: `state.set_extension(name, record)`. -/
def GlobalState.set_extension (s : GlobalState) (k : String) (v : PFExtension) :
    GlobalState :=
  { s with extensions := fun k' => if k' = k then some v else s.extensions k' }

/-! ## The trunk engine (`src/potential_field_engine.py`)

The classic-API compatibility attributes (`potential_func`,
`omega_coriolis`, …) stored on `self` are read only by `get_state` and
never by `update`, and the logger does no state change; they are omitted
from the record.  `_use_strang` is the `use_strang` field, fixed by the
constructor. -/

structure PotentialFieldEngine where
  dt : ℝ
  epsilon : ℝ
  force_layers : List ForceLayer
  gauge : Gauge
  thermo : Thermo
  use_strang : Bool
  time : ℝ
  rng : RNG

/-- Property `gamma` — delegates to the thermo layer. -/
def PotentialFieldEngine.gamma (e : PotentialFieldEngine) : ℝ := e.thermo.gamma

/-- Property `noise_sigma` — delegates to the thermo layer. -/
noncomputable def PotentialFieldEngine.noise_sigma (e : PotentialFieldEngine) : ℝ :=
  e.thermo.sigma

/-- Property `noise_mode` — delegates to the thermo layer. -/
noncomputable def PotentialFieldEngine.noise_mode (e : PotentialFieldEngine) : String :=
  e.thermo.noise_mode

/-- Property `temperature` — delegates to the thermo layer. -/
def PotentialFieldEngine.temperature (e : PotentialFieldEngine) : Option ℝ :=
  e.thermo.temperature

/-- Property `mass` — delegates to the thermo layer. -/
def PotentialFieldEngine.mass (e : PotentialFieldEngine) : ℝ := e.thermo.mass

/-- `_total_force`: fold of `f = f + layer.force(x, v, t)` over the force
layers starting from `np.zeros_like(x)`. -/
noncomputable def PotentialFieldEngine.total_force (e : PotentialFieldEngine)
    (x v : List ℝ) (t : ℝ) : List ℝ :=
  e.force_layers.foldl (fun f l => vadd f (l.force x v t)) (zeros x.length)

/-- `_total_potential`: sum of `layer.potential(x)` over the force layers. -/
def PotentialFieldEngine.total_potential (e : PotentialFieldEngine) (x : List ℝ) : ℝ :=
  e.force_layers.foldl (fun V l => V + l.potential x) 0

/-- `_injection_power`: `Σ v·I(x, v, t)` over the `InjectionForce` layers
only (`t` is the engine's elapsed time at the call site). -/
noncomputable def PotentialFieldEngine.injection_power (e : PotentialFieldEngine)
    (x v : List ℝ) (t : ℝ) : ℝ :=
  e.force_layers.foldl (fun p l =>
    match l with
    | .InjectionForce I => p + dot v (ForceLayer.force (.InjectionForce I) x v t)
    | _ => p) 0

/-- `_strang_step`: the O-S-K-R-K-S-O sequence of the source, threading the
generator through the two thermo half-steps. -/
noncomputable def PotentialFieldEngine.strang_step (e : PotentialFieldEngine)
    (x v : List ℝ) : List ℝ × List ℝ × RNG :=
  let dt := e.dt
  let h := dt / 2
  let p1 := e.thermo.ou_step v h e.rng
  let v1 := p1.1
  let x_half := vadd x (smul h v1)
  let t_mid := e.time + h
  let force := e.total_force x_half v1 t_mid
  let v_minus := vadd v1 (smul h force)
  let v_rot := e.gauge.rotate v_minus dt
  let v_new := vadd v_rot (smul h force)
  let x_new := vadd x_half (smul h v_new)
  let p2 := e.thermo.ou_step v_new h p1.2
  (x_new, p2.1, p2.2)

/-- `_euler_step`: semi-implicit Euler with the same decay/noise formulas
inlined over the full `dt`, as the source writes them. -/
noncomputable def PotentialFieldEngine.euler_step (e : PotentialFieldEngine)
    (x v : List ℝ) : List ℝ × List ℝ × RNG :=
  let dt := e.dt
  let a := e.total_force x v e.time
  let v_tmp := vadd v (smul dt a)
  let decay := if 0 < e.gamma then Real.exp (-(e.gamma * dt)) else 1
  let v_dec := v_tmp.map (fun y => y * decay)
  let σ := e.noise_sigma
  if 0 < σ then
    let amp :=
      if 0 < e.gamma then
        σ * Real.sqrt ((1 - Real.exp (-(2 * e.gamma * dt))) / (2 * e.gamma))
      else σ * Real.sqrt dt
    let d := e.rng.standard_normal v_dec.length
    let v_new := vadd v_dec (d.1.map (fun z => amp * z))
    (vadd x (smul dt v_new), v_new, d.2)
  else
    (vadd x (smul dt v_dec), v_dec, e.rng)

def gaugeTypeName : Gauge → String
  | .CoriolisGauge _ _ => "CoriolisGauge"
  | .NullGauge => "NullGauge"

def thermoTypeName : Thermo → String
  | .LangevinThermo _ _ _ _ => "LangevinThermo"
  | .NullThermo => "NullThermo"

/-- The error message `update` raises for an odd-length state vector. -/
def oddLengthMsg (n : ℕ) : String :=
  "state_vector must have even length (got " ++ toString n ++
    "). Expected format: [x1, ..., xN, v1, ..., vN]"

/-- The body of `update` past the even-length contract check (named
separately so theorems can speak about the successful result): split into
position/velocity halves, run the Strang or Euler step, advance elapsed
time, recompute energies and diagnostics, write the `"potential_field"`
extension, and return the new state together with the engine's new
mutable fields (`_time`, `_rng`). -/
noncomputable def PotentialFieldEngine.updResult (e : PotentialFieldEngine)
    (new_state : GlobalState) : GlobalState × PotentialFieldEngine :=
    let n := new_state.state_vector.length
    let dim := n / 2
    let x := new_state.state_vector.take dim
    let v := new_state.state_vector.drop dim
    let r := if e.use_strang then e.strang_step x v else e.euler_step x v
    let x_new := r.1
    let v_new := r.2.1
    let rng' := r.2.2
    let time' := e.time + e.dt
    let V_new := e.total_potential x_new
    let K_new := 0.5 * e.mass * dot v_new v_new
    let s1 := { new_state with
                  state_vector := x_new ++ v_new, energy := K_new + V_new }
    let dissipation_power := -e.gamma * dot v_new v_new
    let inj_power := e.injection_power x_new v_new time'
    let g_new := e.total_force x_new v_new time'
    let s2 := s1.set_extension "potential_field"
      { potential := V_new
        field := g_new
        kinetic_energy := K_new
        potential_energy := V_new
        total_energy := K_new + V_new
        time := time'
        gamma := e.gamma
        noise_sigma := e.noise_sigma
        noise_mode := e.noise_mode
        temperature := e.temperature
        mass := e.mass
        dissipation_power := dissipation_power
        injection_power := inj_power
        n_force_layers := e.force_layers.length
        gauge_type := gaugeTypeName e.gauge
        thermo_type := thermoTypeName e.thermo }
    (s2, { e with time := time', rng := rng' })

/-- `PotentialFieldEngine.update` at value level: copies the state, checks
the even-length contract (`ValueError` on an odd-length vector), and
otherwise produces `updResult` on the copy. -/
noncomputable def PotentialFieldEngine.update (e : PotentialFieldEngine)
    (state : GlobalState) : Except String (GlobalState × PotentialFieldEngine) :=
  let new_state := state.copy
  let n := new_state.state_vector.length
  if n % 2 ≠ 0 then
    .error (oddLengthMsg n)
  else
    .ok (e.updResult new_state)

/-- `PotentialFieldEngine.__init__` together with `_build_layers`: the
layer-API arguments win when present, else the classic flat parameters
are converted to layer objects; `_use_strang` is fixed here as
`not isinstance(gauge, NullGauge)`.  The seeded numpy generator is passed
in as an explicit draw stream. -/
noncomputable def mkPotentialFieldEngine
    (potential_func : Option (List ℝ → ℝ))
    (field_func : Option (List ℝ → List ℝ))
    (rotational_func : Option (List ℝ → List ℝ → List ℝ))
    (omega_coriolis : Option ℝ)
    (rotation_axis : ℕ × ℕ)
    (gamma : ℝ)
    (injection_func : Option (List ℝ → List ℝ → ℝ → List ℝ))
    (noise_sigma : ℝ)
    (temperature : Option ℝ)
    (mass : ℝ)
    (force_layers : Option (List ForceLayer))
    (gauge_layer : Option Gauge)
    (thermo_layer : Option Thermo)
    (rng : RNG)
    (dt : Option ℝ)
    (epsilon : Option ℝ) : PotentialFieldEngine :=
  let dtv := dt.getD DT
  let epsv := epsilon.getD EPSILON
  let fls := match force_layers with
    | some fl => fl
    | none =>
        (match potential_func with
         | some V => [ForceLayer.GradientForce V field_func epsv]
         | none => []) ++
        (match injection_func with
         | some I => [ForceLayer.InjectionForce I]
         | none => []) ++
        (match rotational_func, omega_coriolis with
         | some f, none => [ForceLayer.CallbackForce f]
         | _, _ => [])
  let g := match gauge_layer with
    | some gl => gl
    | none =>
        match omega_coriolis with
        | some ω => Gauge.CoriolisGauge ω rotation_axis
        | none => Gauge.NullGauge
  let th := match thermo_layer with
    | some t => t
    | none => Thermo.LangevinThermo gamma temperature mass noise_sigma
  { dt := dtv, epsilon := epsv, force_layers := fls, gauge := g, thermo := th,
    use_strang := !g.isNull, time := 0, rng := rng }

/-! ## Explicit heap of Python objects

`update` mutates the engine (`self._time`, `self._rng`) and writes the
fields of the state copy it allocates; `check_conservation` deep-copies
the engine and shallow-copies the state.  To settle the frame claims,
states and engines live in an explicit heap of cells addressed by
natural-number references, with a bump allocator. -/

structure Heap where
  states : ℕ → GlobalState
  nextS : ℕ
  engines : ℕ → PotentialFieldEngine
  nextE : ℕ

def Heap.allocState (h : Heap) (s : GlobalState) : ℕ × Heap :=
  (h.nextS,
   { h with states := fun r => if r = h.nextS then s else h.states r,
            nextS := h.nextS + 1 })

def Heap.writeState (h : Heap) (r : ℕ) (s : GlobalState) : Heap :=
  { h with states := fun r' => if r' = r then s else h.states r' }

def Heap.allocEngine (h : Heap) (e : PotentialFieldEngine) : ℕ × Heap :=
  (h.nextE,
   { h with engines := fun r => if r = h.nextE then e else h.engines r,
            nextE := h.nextE + 1 })

def Heap.writeEngine (h : Heap) (r : ℕ) (e : PotentialFieldEngine) : Heap :=
  { h with engines := fun r' => if r' = r then e else h.engines r' }

/-- `engine.update(state)` as a heap operation: `new_state = state.copy(…)`
allocates a fresh cell; on the odd-length contract violation the
exception propagates with no write to any existing cell (the fresh copy
is unreachable garbage); on success the computed fields are written to
the fresh cell, the engine cell receives its new `_time`/`_rng`, and the
fresh reference is returned. -/
noncomputable def updateImp (er sr : ℕ) (h : Heap) : Heap × Except String ℕ :=
  let e := h.engines er
  let s := h.states sr
  let a := h.allocState s.copy
  match e.update s with
  | .error msg => (a.2, .error msg)
  | .ok (s', e') => (((a.2.writeState a.1 s').writeEngine er e'), .ok a.1)

/-- The result record of a `TrunkChecker` check (`check`, `pass`,
`detail`); the formatted `detail` string is not modelled. -/
structure CheckResult where
  check : String
  pass : Bool

/-- The disposable clone `check_conservation` operates on: a deep copy of
the engine with its thermostat replaced by `NullThermo` and its force
layers reduced to the `GradientForce` ones. -/
def conservativeClone (e : PotentialFieldEngine) : PotentialFieldEngine :=
  { e with thermo := Thermo.NullThermo,
           force_layers := e.force_layers.filter ForceLayer.isGradientForce }

/-- The drift verdict of `check_conservation` on the collected energies:
`max_drift = max |E_t - E₀|`, taken relative to `|E₀|` when
`|E₀| > 1e-12` and absolute otherwise, passes iff below 0.01. -/
noncomputable def driftResult (E0 : ℝ) (energies : List ℝ) : CheckResult :=
  let max_drift := (energies.map (fun En => |En - E0|)).foldl max 0
  let rel_drift := if 1e-12 < |E0| then max_drift / |E0| else max_drift
  { check := "conservation", pass := decide (rel_drift < 0.01) }

/-- The loop of `check_conservation`: `state = eng_copy.update(state)`
`n` times, appending `state.energy` after each step; an exception from
`update` propagates. -/
noncomputable def conservationLoop (er : ℕ) :
    ℕ → ℕ → Heap → List ℝ → Heap × Except String (ℕ × List ℝ)
  | sr, 0, h, acc => (h, .ok (sr, acc))
  | sr, Nat.succ k, h, acc =>
      match updateImp er sr h with
      | (h', .error msg) => (h', .error msg)
      | (h', .ok r') =>
          conservationLoop er r' k h' (acc ++ [(h'.states r').energy])

/-- `TrunkChecker.check_conservation(engine, initial_state, n_steps)`:
deep-copy the engine, replace its thermostat by `NullThermo`, keep only
the `GradientForce` layers, shallow-copy the initial state, run
`n_steps` updates on the copies collecting energies, and pass iff the
drift `max|E_t - E₀|` — relative to `|E₀|` when `|E₀| > 1e-12`, absolute
otherwise — stays below 0.01. -/
noncomputable def TrunkChecker.check_conservation (er sr : ℕ) (n_steps : ℕ)
    (h : Heap) : Heap × Except String CheckResult :=
  let eng_copy := conservativeClone (h.engines er)
  let ae := h.allocEngine eng_copy
  let as_ := ae.2.allocState ((h.states sr).copy)
  let E0 := (as_.2.states as_.1).energy
  match conservationLoop ae.1 as_.1 n_steps as_.2 [E0] with
  | (h3, .error msg) => (h3, .error msg)
  | (h3, .ok p) => (h3, .ok (driftResult E0 p.2))

/-! ## Spec-side definitions (for the refinement claims)

These follow the specification's words, to be compared with the
definitions above that were translated from the source. -/

/-- The seven-stage Strang sequence exactly as §4.5 of the spec lists it:
thermo half-step, half drift, one total-force evaluation at the
midpoint, half kick, exact gauge rotation over the full `dt`, a second
half kick reusing the same force vector, half drift, thermo half-step,
each half over `h = dt/2`. -/
noncomputable def strangStagesSpec (e : PotentialFieldEngine) (x v : List ℝ) :
    List ℝ × List ℝ × RNG :=
  let h := e.dt / 2
  let o1 := e.thermo.ou_step v h e.rng
  let x_half := vadd x (smul h o1.1)
  let F := e.total_force x_half o1.1 (e.time + h)
  let v_minus := vadd o1.1 (smul h F)
  let v_rot := e.gauge.rotate v_minus e.dt
  let v_new := vadd v_rot (smul h F)
  let x_new := vadd x_half (smul h v_new)
  let o2 := e.thermo.ou_step v_new h o1.2
  (x_new, o2.1, o2.2)

/-- The Euler-mode update exactly as the spec words it:
`a = Σ force`, `v_tmp = v + dt·a`, `v_new = exp(-γ·dt)·v_tmp` when
`γ > 0` and `v_new = v_tmp` otherwise, one Gaussian draw per component
with the γ→0-aware amplitude over the full `dt` when `σ > 0`, and
finally `x_new = x + dt·v_new`. -/
noncomputable def eulerStagesSpec (e : PotentialFieldEngine) (x v : List ℝ) :
    List ℝ × List ℝ × RNG :=
  let a := e.total_force x v e.time
  let v_tmp := vadd v (smul e.dt a)
  let v_dec := if 0 < e.gamma then smul (Real.exp (-(e.gamma * e.dt))) v_tmp
               else v_tmp
  if 0 < e.noise_sigma then
    let amp :=
      if 0 < e.gamma then
        e.noise_sigma *
          Real.sqrt ((1 - Real.exp (-(2 * e.gamma * e.dt))) / (2 * e.gamma))
      else e.noise_sigma * Real.sqrt e.dt
    let d := e.rng.standard_normal v_dec.length
    let v_new := vadd v_dec (smul amp d.1)
    (vadd x (smul e.dt v_new), v_new, d.2)
  else
    (vadd x (smul e.dt v_dec), v_dec, e.rng)

/-- Pure reference run for the conservation check: iterate the engine's
value-level `update` `n` times from a state, collecting the energy of
the state after each step. -/
noncomputable def energiesRun :
    PotentialFieldEngine → GlobalState → ℕ → Except String (List ℝ)
  | _, _, 0 => .ok []
  | e, s, Nat.succ k =>
      match e.update s with
      | .error msg => .error msg
      | .ok (s', e') => (energiesRun e' s' k).map (fun l => s'.energy :: l)

/-! ## Concrete inputs for the witnesses -/

def demoRNG : RNG := ⟨fun _ => 0, 0⟩

def demoStateOdd : GlobalState :=
  { state_vector := [1, 2, 3], energy := 0, extensions := fun _ => none }

def demoStateEven : GlobalState :=
  { state_vector := [1, 0, 0, 0], energy := 0, extensions := fun _ => none }

def demoEulerEngine : PotentialFieldEngine :=
  { dt := 1, epsilon := 1, force_layers := [], gauge := Gauge.NullGauge,
    thermo := Thermo.NullThermo, use_strang := false, time := 0, rng := demoRNG }

def demoStrangEngine : PotentialFieldEngine :=
  { dt := 1, epsilon := 1, force_layers := [],
    gauge := Gauge.CoriolisGauge 1 (0, 1),
    thermo := Thermo.NullThermo, use_strang := true, time := 0, rng := demoRNG }

def demoHeap : Heap :=
  { states := fun r => if r = 0 then demoStateOdd else demoStateEven,
    nextS := 2,
    engines := fun _ => demoEulerEngine,
    nextE := 1 }

/-! ## Helper lemmas on the vector operations -/

theorem map_mul_right (c : ℝ) (v : List ℝ) :
    v.map (fun x => x * c) = smul c v := by
  induction v with
  | nil => rfl
  | cons a l ih => simp only [List.map, smul] at ih ⊢; rw [ih, mul_comm]

theorem smul_one_vec (v : List ℝ) : smul 1 v = v := by
  simp [smul]

theorem map_mul_one (v : List ℝ) : v.map (fun x => x * 1) = v := by
  simp

theorem sumSq_cons (x : ℝ) (l : List ℝ) : sumSq (x :: l) = x ^ 2 + sumSq l := by
  simp [sumSq]

theorem getD_set_self (l : List ℝ) (n : ℕ) (a : ℝ) (h : n < l.length) :
    (l.set n a).getD n 0 = a := by
  induction l generalizing n with
  | nil => simp at h
  | cons b t ih =>
      cases n with
      | zero => rfl
      | succ n => exact ih n (by simpa using h)

theorem getD_set_ne (l : List ℝ) (n k : ℕ) (a : ℝ) (h : n ≠ k) :
    (l.set n a).getD k 0 = l.getD k 0 := by
  induction l generalizing n k with
  | nil => simp
  | cons b t ih =>
      cases n with
      | zero =>
          cases k with
          | zero => exact absurd rfl h
          | succ k => rfl
      | succ n =>
          cases k with
          | zero => rfl
          | succ k => exact ih n k (fun hnk => h (by rw [hnk]))

theorem sumSq_set (l : List ℝ) (n : ℕ) (a : ℝ) (h : n < l.length) :
    sumSq (l.set n a) = sumSq l - (l.getD n 0) ^ 2 + a ^ 2 := by
  induction l generalizing n with
  | nil => simp at h
  | cons b t ih =>
      cases n with
      | zero => simp [sumSq_cons]; ring
      | succ n =>
          have hn : n < t.length := by simpa using h
          simp only [List.set, sumSq_cons, List.getD_cons_succ]
          rw [ih n hn]
          ring

/-! ## Thermostat lemmas and claims -/

/-- A `"manual"`-mode thermostat passes `check_fdt` by the early return,
before any arithmetic on the mass can run. -/
theorem check_fdt_manual_mode_true (γ : ℝ) (T : Option ℝ) (m σo : ℝ)
    (hm : (Thermo.LangevinThermo γ T m σo).noise_mode = "manual") :
    (Thermo.LangevinThermo γ T m σo).check_fdt = .ok true := by
  simp [Thermo.check_fdt, hm]

/-- An `"off"`-mode thermostat passes `check_fdt` by the early return,
before any arithmetic on the mass can run. -/
theorem check_fdt_off_mode_true (γ : ℝ) (T : Option ℝ) (m σo : ℝ)
    (hm : (Thermo.LangevinThermo γ T m σo).noise_mode = "off") :
    (Thermo.LangevinThermo γ T m σo).check_fdt = .ok true := by
  simp [Thermo.check_fdt, hm]

/-- C5: for every `LangevinThermo` configuration the noise amplitude and
mode resolve in the fixed priority order — a positive override gives
`σ = σ_override` and mode `"manual"`; otherwise a supplied positive
temperature together with `γ > 0` gives `σ = sqrt(2γT/m)` and mode
`"fdt"`; otherwise `σ = 0` and mode `"off"`. -/
theorem langevin_sigma_mode_priority (γ : ℝ) (T : Option ℝ) (m σo : ℝ) :
    (0 < σo →
       (Thermo.LangevinThermo γ T m σo).sigma = σo ∧
       (Thermo.LangevinThermo γ T m σo).noise_mode = "manual")
  ∧ (σo ≤ 0 → ∀ t : ℝ, T = some t → 0 < t → 0 < γ →
       (Thermo.LangevinThermo γ T m σo).sigma = Real.sqrt (2 * γ * t / m) ∧
       (Thermo.LangevinThermo γ T m σo).noise_mode = "fdt")
  ∧ (σo ≤ 0 → (∀ t : ℝ, T = some t → t ≤ 0 ∨ γ ≤ 0) →
       (Thermo.LangevinThermo γ T m σo).sigma = 0 ∧
       (Thermo.LangevinThermo γ T m σo).noise_mode = "off") := by
  refine ⟨fun hσ => ?_, fun hσ t ht h1 h2 => ?_, fun hσ hcond => ?_⟩
  · simp [Thermo.sigma, Thermo.noise_mode, hσ]
  · subst ht
    have hns : ¬ 0 < σo := not_lt.mpr hσ
    simp [Thermo.sigma, Thermo.noise_mode, hns, h1, h2]
  · have hns : ¬ 0 < σo := not_lt.mpr hσ
    cases T with
    | none => simp [Thermo.sigma, Thermo.noise_mode, hns]
    | some t =>
        have hnc : ¬ (0 < t ∧ 0 < γ) := by
          rcases hcond t rfl with h | h
          · exact fun hcc => absurd hcc.1 (not_lt.mpr h)
          · exact fun hcc => absurd hcc.2 (not_lt.mpr h)
        simp [Thermo.sigma, Thermo.noise_mode, hns, hnc]

/-- C10 counterexample: at γ = 1, T = 1, mass = -1, no override, the mode
is `"fdt"` and `check_fdt` returns `False` — both σ and the expected
value are NaN and the NaN comparison fails — and at mass = 0 it raises
`ZeroDivisionError` instead of returning `true`. -/
theorem check_fdt_nonpositive_mass_counterexample :
    (Thermo.LangevinThermo 1 (some 1) (-1) 0).noise_mode = "fdt"
  ∧ (Thermo.LangevinThermo 1 (some 1) (-1) 0).check_fdt = .ok false
  ∧ (Thermo.LangevinThermo 1 (some 1) 0 0).check_fdt
      = .error "ZeroDivisionError: float division by zero" := by
  have hmode : (Thermo.LangevinThermo (1:ℝ) (some 1) (-1) 0).noise_mode
      = "fdt" := by
    norm_num [Thermo.noise_mode]
  have hmode0 : (Thermo.LangevinThermo (1:ℝ) (some 1) 0 0).noise_mode
      = "fdt" := by
    norm_num [Thermo.noise_mode]
  have hne1 : ("fdt" : String) ≠ "manual" := by decide
  have hne2 : ("fdt" : String) ≠ "off" := by decide
  refine ⟨hmode, ?_, ?_⟩
  · norm_num [Thermo.check_fdt, hmode, hne1, hne2, Thermo.sigmaFloat, pyDiv,
      npSqrt, fpAbsSubLt, Except.map]
  · norm_num [Thermo.check_fdt, hmode0, hne1, hne2, pyDiv, Except.map]

/-- C10 (amended): `check_fdt` returns `true` in `"manual"` and `"off"`
modes for any mass, and in `"fdt"` mode whenever the mass is positive —
there σ is itself derived as `sqrt(2γT/m)`, a well-defined nonnegative
radicand, so the inconsistency branch `|σ - sqrt(2γT/m)| ≥ 1e-12` is
unreachable. -/
theorem langevin_check_fdt_positive_mass (γ : ℝ) (T : Option ℝ) (m σo : ℝ) :
    ((Thermo.LangevinThermo γ T m σo).noise_mode = "manual" ∨
       (Thermo.LangevinThermo γ T m σo).noise_mode = "off" →
       (Thermo.LangevinThermo γ T m σo).check_fdt = .ok true)
  ∧ (0 < m → (Thermo.LangevinThermo γ T m σo).check_fdt = .ok true)
  ∧ ((Thermo.LangevinThermo γ T m σo).noise_mode = "fdt" →
       (Thermo.LangevinThermo γ T m σo).sigma
         = Real.sqrt (2 * γ * T.getD 0 / m)) := by
  refine ⟨?_, ?_, ?_⟩
  · rintro (hm | hm)
    · exact check_fdt_manual_mode_true γ T m σo hm
    · exact check_fdt_off_mode_true γ T m σo hm
  · intro hmass
    by_cases hσ : 0 < σo
    · exact check_fdt_manual_mode_true γ T m σo (by simp [Thermo.noise_mode, hσ])
    · cases T with
      | none =>
          exact check_fdt_off_mode_true γ none m σo
            (by simp [Thermo.noise_mode, hσ])
      | some t =>
          by_cases hc : 0 < t ∧ 0 < γ
          · have hmode : (Thermo.LangevinThermo γ (some t) m σo).noise_mode
                = "fdt" := by
              simp [Thermo.noise_mode, hσ, hc]
            have hmne : m ≠ 0 := ne_of_gt hmass
            have hq : ¬ (2 * γ * t / m < 0) := by
              push_neg
              have h1 : (0:ℝ) ≤ 2 * γ * t := by nlinarith [hc.1, hc.2]
              exact div_nonneg h1 (le_of_lt hmass)
            have hne1 : ("fdt" : String) ≠ "manual" := by decide
            have hne2 : ("fdt" : String) ≠ "off" := by decide
            norm_num [Thermo.check_fdt, hmode, hne1, hne2, Thermo.sigmaFloat,
              hσ, hc, pyDiv, npSqrt, hmne, hq, fpAbsSubLt, Except.map]
          · exact check_fdt_off_mode_true γ (some t) m σo
              (by simp [Thermo.noise_mode, hσ, hc])
  · intro hm
    by_cases hσ : 0 < σo
    · simp [Thermo.noise_mode, hσ] at hm
    · cases T with
      | none => simp [Thermo.noise_mode, hσ] at hm
      | some t =>
          by_cases hc : 0 < t ∧ 0 < γ
          · simp [Thermo.sigma, hσ, hc]
          · simp [Thermo.noise_mode, hσ, hc] at hm

/-- C7 counterexample: a manually set σ (positive override) forces mode
`"manual"`, so no thermostat configuration has σ manually set while the
mode is `"fdt"` — the claimed false-returning scenario cannot be
constructed at all. -/
theorem manual_override_excludes_fdt_mode :
    ¬ ∃ (γ t m σo : ℝ), 0 < σo ∧
      (Thermo.LangevinThermo γ (some t) m σo).noise_mode = "fdt" := by
  rintro ⟨γ, t, m, σo, hσ, hmode⟩
  simp [Thermo.noise_mode, hσ] at hmode

/-- C7 (amended): a positive σ override forces mode `"manual"`, so σ can
never be manually set while the mode is `"fdt"`; and in `"manual"` and
`"off"` modes `check_fdt` returns `true` regardless of σ. -/
theorem check_fdt_manual_off_modes (γ : ℝ) (T : Option ℝ) (m σo : ℝ) :
    (0 < σo → (Thermo.LangevinThermo γ T m σo).noise_mode = "manual")
  ∧ ((Thermo.LangevinThermo γ T m σo).noise_mode = "manual" →
       (Thermo.LangevinThermo γ T m σo).check_fdt = .ok true)
  ∧ ((Thermo.LangevinThermo γ T m σo).noise_mode = "off" →
       (Thermo.LangevinThermo γ T m σo).check_fdt = .ok true) := by
  refine ⟨fun hσ => ?_, fun hm => ?_, fun hm => ?_⟩
  · simp [Thermo.noise_mode, hσ]
  · exact check_fdt_manual_mode_true γ T m σo hm
  · exact check_fdt_off_mode_true γ T m σo hm

/-- C4: `LangevinThermo.ou_step` returns `exp(-γh)·v` (decay factor
exactly 1 at γ = 0, by the explicit branch) plus, when `σ > 0`, one
standard-normal draw per dimension scaled by
`σ·sqrt((1-exp(-2γh))/(2γ))` for γ > 0 and by the analytic γ→0 limit
`σ·sqrt(h)` at γ = 0, advancing the generator by exactly `v.length`
draws; with `σ ≤ 0` the generator is untouched. -/
theorem langevin_ou_step_exact (γ : ℝ) (T : Option ℝ) (m σo : ℝ)
    (v : List ℝ) (h : ℝ) (rng : RNG) (hγ : 0 ≤ γ) :
    ((Thermo.LangevinThermo γ T m σo).sigma ≤ 0 →
       (Thermo.LangevinThermo γ T m σo).ou_step v h rng
         = (smul (Real.exp (-(γ * h))) v, rng))
  ∧ (0 < (Thermo.LangevinThermo γ T m σo).sigma →
       (Thermo.LangevinThermo γ T m σo).ou_step v h rng
         = (vadd (smul (Real.exp (-(γ * h))) v)
             (smul ((Thermo.LangevinThermo γ T m σo).sigma *
                (if 0 < γ then Real.sqrt ((1 - Real.exp (-(2 * γ * h))) / (2 * γ))
                 else Real.sqrt h))
               ((List.range v.length).map (fun k => rng.seq (rng.idx + k)))),
            ⟨rng.seq, rng.idx + v.length⟩))
  ∧ (γ = 0 → 0 < (Thermo.LangevinThermo γ T m σo).sigma →
       ((Thermo.LangevinThermo γ T m σo).ou_step v h rng).1
         = vadd v (smul ((Thermo.LangevinThermo γ T m σo).sigma * Real.sqrt h)
             ((List.range v.length).map (fun k => rng.seq (rng.idx + k))))) := by
  refine ⟨fun hσ => ?_, fun hσ => ?_, fun h0 hσ => ?_⟩
  · have hns : ¬ 0 < (Thermo.LangevinThermo γ T m σo).sigma := not_lt.mpr hσ
    by_cases hg : 0 < γ
    · simp [Thermo.ou_step, hns, hg, map_mul_right]
    · have h0 : γ = 0 := le_antisymm (not_lt.mp hg) hγ
      subst h0
      simp [Thermo.ou_step, hns, map_mul_one, Real.exp_zero, smul_one_vec]
  · by_cases hg : 0 < γ
    · simp [Thermo.ou_step, hσ, hg, map_mul_right, RNG.standard_normal, smul]
    · have h0 : γ = 0 := le_antisymm (not_lt.mp hg) hγ
      subst h0
      simp [Thermo.ou_step, hσ, map_mul_one, Real.exp_zero, smul_one_vec,
        RNG.standard_normal, smul]
  · subst h0
    simp [Thermo.ou_step, hσ, map_mul_one, RNG.standard_normal, smul]

/-- C4 witness at a concrete input: γ = 1 ≥ 0, the manual override 2
makes σ = 2 > 0, so the noisy branch of the conclusion applies. -/
theorem langevin_ou_step_exact_witness :
    (0 : ℝ) ≤ 1 ∧
    (((Thermo.LangevinThermo 1 none 1 2).sigma ≤ 0 →
       (Thermo.LangevinThermo 1 none 1 2).ou_step [3] 5 demoRNG
         = (smul (Real.exp (-(1 * 5))) [3], demoRNG))
  ∧ (0 < (Thermo.LangevinThermo 1 none 1 2).sigma →
       (Thermo.LangevinThermo 1 none 1 2).ou_step [3] 5 demoRNG
         = (vadd (smul (Real.exp (-(1 * 5))) [3])
             (smul ((Thermo.LangevinThermo 1 none 1 2).sigma *
                (if (0:ℝ) < 1 then
                   Real.sqrt ((1 - Real.exp (-(2 * 1 * 5))) / (2 * 1))
                 else Real.sqrt 5))
               ((List.range ([3] : List ℝ).length).map
                 (fun k => demoRNG.seq (demoRNG.idx + k)))),
            ⟨demoRNG.seq, demoRNG.idx + ([3] : List ℝ).length⟩))
  ∧ ((1 : ℝ) = 0 → 0 < (Thermo.LangevinThermo 1 none 1 2).sigma →
       ((Thermo.LangevinThermo 1 none 1 2).ou_step [3] 5 demoRNG).1
         = vadd [3] (smul ((Thermo.LangevinThermo 1 none 1 2).sigma * Real.sqrt 5)
             ((List.range ([3] : List ℝ).length).map
               (fun k => demoRNG.seq (demoRNG.idx + k)))))) :=
  ⟨by norm_num, langevin_ou_step_exact 1 none 1 2 [3] 5 demoRNG (by norm_num)⟩

/-- C6: on in-range distinct axes `(i, j)`, `CoriolisGauge.rotate` applies
the exact 2×2 rotation matrix of angle `ω·dt` to components `(v[i], v[j])`,
leaves every other component unchanged, preserves `v[i]² + v[j]²` — and
with it the squared norm `Σ v_k²` — exactly in real arithmetic, and
`NullGauge.rotate` returns its input unchanged. -/
theorem coriolis_rotate_exact (ω dtv : ℝ) (i j k : ℕ) (v : List ℝ)
    (hij : i ≠ j) (hi : i < v.length) (hj : j < v.length) :
    (Gauge.rotate (Gauge.CoriolisGauge ω (i, j)) v dtv).length = v.length
  ∧ (Gauge.rotate (Gauge.CoriolisGauge ω (i, j)) v dtv).getD i 0
      = Real.cos (ω * dtv) * v.getD i 0 - Real.sin (ω * dtv) * v.getD j 0
  ∧ (Gauge.rotate (Gauge.CoriolisGauge ω (i, j)) v dtv).getD j 0
      = Real.sin (ω * dtv) * v.getD i 0 + Real.cos (ω * dtv) * v.getD j 0
  ∧ (k ≠ i → k ≠ j →
      (Gauge.rotate (Gauge.CoriolisGauge ω (i, j)) v dtv).getD k 0 = v.getD k 0)
  ∧ ((Gauge.rotate (Gauge.CoriolisGauge ω (i, j)) v dtv).getD i 0) ^ 2
      + ((Gauge.rotate (Gauge.CoriolisGauge ω (i, j)) v dtv).getD j 0) ^ 2
      = (v.getD i 0) ^ 2 + (v.getD j 0) ^ 2
  ∧ sumSq (Gauge.rotate (Gauge.CoriolisGauge ω (i, j)) v dtv) = sumSq v
  ∧ Gauge.rotate Gauge.NullGauge v dtv = v := by
  have hlen : (Gauge.rotate (Gauge.CoriolisGauge ω (i, j)) v dtv).length
      = v.length := by
    simp [Gauge.rotate]
  have hgi : (Gauge.rotate (Gauge.CoriolisGauge ω (i, j)) v dtv).getD i 0
      = Real.cos (ω * dtv) * v.getD i 0 - Real.sin (ω * dtv) * v.getD j 0 := by
    simp only [Gauge.rotate]
    rw [getD_set_ne _ j i _ (Ne.symm hij), getD_set_self _ i _ hi]
  have hgj : (Gauge.rotate (Gauge.CoriolisGauge ω (i, j)) v dtv).getD j 0
      = Real.sin (ω * dtv) * v.getD i 0 + Real.cos (ω * dtv) * v.getD j 0 := by
    simp only [Gauge.rotate]
    rw [getD_set_self _ j _ (by simpa using hj)]
  have hpyth : ((Gauge.rotate (Gauge.CoriolisGauge ω (i, j)) v dtv).getD i 0) ^ 2
      + ((Gauge.rotate (Gauge.CoriolisGauge ω (i, j)) v dtv).getD j 0) ^ 2
      = (v.getD i 0) ^ 2 + (v.getD j 0) ^ 2 := by
    rw [hgi, hgj]
    linear_combination
      ((v.getD i 0) ^ 2 + (v.getD j 0) ^ 2) * (Real.sin_sq_add_cos_sq (ω * dtv))
  refine ⟨hlen, hgi, hgj, fun hki hkj => ?_, hpyth, ?_, rfl⟩
  · simp only [Gauge.rotate]
    rw [getD_set_ne _ j k _ (fun hjk => hkj hjk.symm),
        getD_set_ne _ i k _ (fun hik => hki hik.symm)]
  · simp only [Gauge.rotate]
    rw [sumSq_set _ j _ (by simpa using hj),
        sumSq_set _ i _ hi,
        getD_set_ne _ i j _ hij]
    have hpy2 : (Real.cos (ω * dtv) * v.getD i 0 - Real.sin (ω * dtv) * v.getD j 0) ^ 2
        + (Real.sin (ω * dtv) * v.getD i 0 + Real.cos (ω * dtv) * v.getD j 0) ^ 2
        = (v.getD i 0) ^ 2 + (v.getD j 0) ^ 2 := by
      linear_combination
        ((v.getD i 0) ^ 2 + (v.getD j 0) ^ 2) * (Real.sin_sq_add_cos_sq (ω * dtv))
    linarith [hpy2]

/-- C6 witness at a concrete input: `v = [1, 2, 5]`, axes `(0, 1)`,
bystander index 2. -/
theorem coriolis_rotate_exact_witness :
    (0 : ℕ) ≠ 1 ∧ 0 < ([1, 2, 5] : List ℝ).length ∧ 1 < ([1, 2, 5] : List ℝ).length ∧
    ((Gauge.rotate (Gauge.CoriolisGauge 3 (0, 1)) [1, 2, 5] 7).length
        = ([1, 2, 5] : List ℝ).length
  ∧ (Gauge.rotate (Gauge.CoriolisGauge 3 (0, 1)) [1, 2, 5] 7).getD 0 0
      = Real.cos (3 * 7) * ([1, 2, 5] : List ℝ).getD 0 0
        - Real.sin (3 * 7) * ([1, 2, 5] : List ℝ).getD 1 0
  ∧ (Gauge.rotate (Gauge.CoriolisGauge 3 (0, 1)) [1, 2, 5] 7).getD 1 0
      = Real.sin (3 * 7) * ([1, 2, 5] : List ℝ).getD 0 0
        + Real.cos (3 * 7) * ([1, 2, 5] : List ℝ).getD 1 0
  ∧ ((2 : ℕ) ≠ 0 → (2 : ℕ) ≠ 1 →
      (Gauge.rotate (Gauge.CoriolisGauge 3 (0, 1)) [1, 2, 5] 7).getD 2 0
        = ([1, 2, 5] : List ℝ).getD 2 0)
  ∧ ((Gauge.rotate (Gauge.CoriolisGauge 3 (0, 1)) [1, 2, 5] 7).getD 0 0) ^ 2
      + ((Gauge.rotate (Gauge.CoriolisGauge 3 (0, 1)) [1, 2, 5] 7).getD 1 0) ^ 2
      = (([1, 2, 5] : List ℝ).getD 0 0) ^ 2 + (([1, 2, 5] : List ℝ).getD 1 0) ^ 2
  ∧ sumSq (Gauge.rotate (Gauge.CoriolisGauge 3 (0, 1)) [1, 2, 5] 7)
      = sumSq [1, 2, 5]
  ∧ Gauge.rotate Gauge.NullGauge [1, 2, 5] 7 = [1, 2, 5]) :=
  ⟨by decide, by simp, by simp,
   coriolis_rotate_exact 3 7 0 1 2 [1, 2, 5] (by decide) (by simp) (by simp)⟩

/-! ## Update characterization lemmas -/

/-- On an even-length state vector, `update` succeeds with `updResult`. -/
theorem update_even_eq (e : PotentialFieldEngine) (s : GlobalState)
    (heven : s.state_vector.length % 2 = 0) :
    e.update s = .ok (e.updResult s) := by
  simp [PotentialFieldEngine.update, GlobalState.copy, heven]

/-- On an odd-length state vector, `update` raises the contract error. -/
theorem update_odd_eq (e : PotentialFieldEngine) (s : GlobalState)
    (hodd : s.state_vector.length % 2 ≠ 0) :
    e.update s = .error (oddLengthMsg s.state_vector.length) := by
  simp [PotentialFieldEngine.update, GlobalState.copy, hodd]

/-- The source's `_strang_step` is stage-for-stage the spec's sequence. -/
theorem strang_step_eq_spec (e : PotentialFieldEngine) (x v : List ℝ) :
    e.strang_step x v = strangStagesSpec e x v := rfl

/-- The source's `_euler_step` equals the spec's Euler-mode wording
(`v·decay` elementwise versus `decay·v_tmp`, and the explicit `γ = 0`
no-decay case). -/
theorem euler_step_eq_spec (e : PotentialFieldEngine) (x v : List ℝ) :
    e.euler_step x v = eulerStagesSpec e x v := by
  by_cases hg : 0 < e.gamma
  · simp [PotentialFieldEngine.euler_step, eulerStagesSpec, hg, map_mul_right, smul]
  · simp [PotentialFieldEngine.euler_step, eulerStagesSpec, hg, map_mul_one, smul]

/-- The strang/euler mode flag of a constructed engine is `not gauge.isNull`. -/
theorem mk_use_strang_eq
    (pf : Option (List ℝ → ℝ)) (ff : Option (List ℝ → List ℝ))
    (rf : Option (List ℝ → List ℝ → List ℝ)) (ωc : Option ℝ) (ax : ℕ × ℕ)
    (γ : ℝ) (inj : Option (List ℝ → List ℝ → ℝ → List ℝ)) (nσ : ℝ)
    (T : Option ℝ) (m : ℝ) (fls : Option (List ForceLayer))
    (gl : Option Gauge) (tl : Option Thermo) (rng : RNG) (dt eps : Option ℝ) :
    (mkPotentialFieldEngine pf ff rf ωc ax γ inj nσ T m fls gl tl rng dt eps).use_strang
      = !(mkPotentialFieldEngine pf ff rf ωc ax γ inj nσ T m fls gl tl rng dt eps).gauge.isNull :=
  rfl

/-- A boolean reading of `use_strang = not isNull`. -/
theorem use_strang_iff_not_null (e : PotentialFieldEngine)
    (huse : e.use_strang = !e.gauge.isNull) :
    (e.use_strang = true ↔ e.gauge.isNull = false) := by
  cases hge : e.gauge.isNull <;> simp [huse, hge]

/-- C2: the integration mode is fixed at construction — a constructed
engine takes the Strang path iff its gauge is not the null variant — and
in Strang mode one `update` performs exactly the spec's stage sequence
(`strangStagesSpec`: thermo half-step, half drift, one force evaluation
at the midpoint, half kick, gauge rotation over the full `dt`, a second
half kick reusing the same force vector, half drift, thermo half-step,
each half over `h = dt/2`), leaving the mode flag unchanged. -/
theorem strang_mode_and_stage_sequence (e : PotentialFieldEngine) (s : GlobalState)
    (hs : e.use_strang = true) (heven : s.state_vector.length % 2 = 0) :
    (∃ s2 e2, e.update s = .ok (s2, e2)
       ∧ s2.state_vector
           = (strangStagesSpec e (s.state_vector.take (s.state_vector.length / 2))
               (s.state_vector.drop (s.state_vector.length / 2))).1
             ++ (strangStagesSpec e (s.state_vector.take (s.state_vector.length / 2))
               (s.state_vector.drop (s.state_vector.length / 2))).2.1
       ∧ e2.rng
           = (strangStagesSpec e (s.state_vector.take (s.state_vector.length / 2))
               (s.state_vector.drop (s.state_vector.length / 2))).2.2
       ∧ e2.time = e.time + e.dt
       ∧ e2.use_strang = e.use_strang ∧ e2.gauge = e.gauge
       ∧ e2.thermo = e.thermo ∧ e2.force_layers = e.force_layers)
  ∧ (∀ (pf : Option (List ℝ → ℝ)) (ff : Option (List ℝ → List ℝ))
       (rf : Option (List ℝ → List ℝ → List ℝ)) (ωc : Option ℝ) (ax : ℕ × ℕ)
       (γ : ℝ) (inj : Option (List ℝ → List ℝ → ℝ → List ℝ)) (nσ : ℝ)
       (T : Option ℝ) (m : ℝ) (fls : Option (List ForceLayer))
       (gl : Option Gauge) (tl : Option Thermo) (rng : RNG) (dt eps : Option ℝ),
       (mkPotentialFieldEngine pf ff rf ωc ax γ inj nσ T m fls gl tl rng dt eps).use_strang
           = true
         ↔ (mkPotentialFieldEngine pf ff rf ωc ax γ inj nσ T m fls gl tl rng dt eps).gauge.isNull
           = false) := by
  constructor
  · refine ⟨(e.updResult s).1, (e.updResult s).2, ?_, ?_, ?_, ?_, ?_, ?_, ?_, ?_⟩
    · rw [update_even_eq e s heven]
    · simp [PotentialFieldEngine.updResult, GlobalState.set_extension, hs,
        strang_step_eq_spec]
    · simp [PotentialFieldEngine.updResult, GlobalState.set_extension, hs,
        strang_step_eq_spec]
    · simp [PotentialFieldEngine.updResult, GlobalState.set_extension, hs]
    · simp [PotentialFieldEngine.updResult, GlobalState.set_extension, hs]
    · simp [PotentialFieldEngine.updResult, GlobalState.set_extension, hs]
    · simp [PotentialFieldEngine.updResult, GlobalState.set_extension, hs]
    · simp [PotentialFieldEngine.updResult, GlobalState.set_extension, hs]
  · intro pf ff rf ωc ax γ inj nσ T m fls gl tl rng dt eps
    exact use_strang_iff_not_null _
      (mk_use_strang_eq pf ff rf ωc ax γ inj nσ T m fls gl tl rng dt eps)

/-- C2 witness at a concrete input: a Strang-mode engine (Coriolis gauge)
on the even-length state `[1, 0, 0, 0]`. -/
theorem strang_mode_and_stage_sequence_witness :
    demoStrangEngine.use_strang = true ∧
    demoStateEven.state_vector.length % 2 = 0 ∧
    ((∃ s2 e2, demoStrangEngine.update demoStateEven = .ok (s2, e2)
       ∧ s2.state_vector
           = (strangStagesSpec demoStrangEngine
               (demoStateEven.state_vector.take
                 (demoStateEven.state_vector.length / 2))
               (demoStateEven.state_vector.drop
                 (demoStateEven.state_vector.length / 2))).1
             ++ (strangStagesSpec demoStrangEngine
               (demoStateEven.state_vector.take
                 (demoStateEven.state_vector.length / 2))
               (demoStateEven.state_vector.drop
                 (demoStateEven.state_vector.length / 2))).2.1
       ∧ e2.rng
           = (strangStagesSpec demoStrangEngine
               (demoStateEven.state_vector.take
                 (demoStateEven.state_vector.length / 2))
               (demoStateEven.state_vector.drop
                 (demoStateEven.state_vector.length / 2))).2.2
       ∧ e2.time = demoStrangEngine.time + demoStrangEngine.dt
       ∧ e2.use_strang = demoStrangEngine.use_strang
       ∧ e2.gauge = demoStrangEngine.gauge
       ∧ e2.thermo = demoStrangEngine.thermo
       ∧ e2.force_layers = demoStrangEngine.force_layers)
  ∧ (∀ (pf : Option (List ℝ → ℝ)) (ff : Option (List ℝ → List ℝ))
       (rf : Option (List ℝ → List ℝ → List ℝ)) (ωc : Option ℝ) (ax : ℕ × ℕ)
       (γ : ℝ) (inj : Option (List ℝ → List ℝ → ℝ → List ℝ)) (nσ : ℝ)
       (T : Option ℝ) (m : ℝ) (fls : Option (List ForceLayer))
       (gl : Option Gauge) (tl : Option Thermo) (rng : RNG) (dt eps : Option ℝ),
       (mkPotentialFieldEngine pf ff rf ωc ax γ inj nσ T m fls gl tl rng dt eps).use_strang
           = true
         ↔ (mkPotentialFieldEngine pf ff rf ωc ax γ inj nσ T m fls gl tl rng dt eps).gauge.isNull
           = false)) :=
  ⟨rfl, by simp [demoStateEven],
   strang_mode_and_stage_sequence demoStrangEngine demoStateEven rfl
     (by simp [demoStateEven])⟩

/-- C3: in Euler mode (`use_strang = false`) one `update` performs exactly
the spec's single-stage semi-implicit sequence (`eulerStagesSpec`:
`a = Σ forces(x, v, t)`, `v_tmp = v + dt·a`, decay by `exp(-γ·dt)` only
when `γ > 0`, one Gaussian draw per component with the γ→0-aware
amplitude over the full `dt` when `σ > 0`, then `x_new = x + dt·v_new`). -/
theorem euler_mode_stage_sequence (e : PotentialFieldEngine) (s : GlobalState)
    (hm : e.use_strang = false) (heven : s.state_vector.length % 2 = 0) :
    ∃ s2 e2, e.update s = .ok (s2, e2)
      ∧ s2.state_vector
          = (eulerStagesSpec e (s.state_vector.take (s.state_vector.length / 2))
              (s.state_vector.drop (s.state_vector.length / 2))).1
            ++ (eulerStagesSpec e (s.state_vector.take (s.state_vector.length / 2))
              (s.state_vector.drop (s.state_vector.length / 2))).2.1
      ∧ e2.rng
          = (eulerStagesSpec e (s.state_vector.take (s.state_vector.length / 2))
              (s.state_vector.drop (s.state_vector.length / 2))).2.2
      ∧ e2.time = e.time + e.dt
      ∧ e2.use_strang = e.use_strang := by
  refine ⟨(e.updResult s).1, (e.updResult s).2, ?_, ?_, ?_, ?_, ?_⟩
  · rw [update_even_eq e s heven]
  · simp [PotentialFieldEngine.updResult, GlobalState.set_extension, hm,
      euler_step_eq_spec]
  · simp [PotentialFieldEngine.updResult, GlobalState.set_extension, hm,
      euler_step_eq_spec]
  · simp [PotentialFieldEngine.updResult, GlobalState.set_extension, hm]
  · simp [PotentialFieldEngine.updResult, GlobalState.set_extension, hm]

/-- C3 witness at a concrete input: the null-gauge engine on the
even-length state `[1, 0, 0, 0]`. -/
theorem euler_mode_stage_sequence_witness :
    demoEulerEngine.use_strang = false ∧
    demoStateEven.state_vector.length % 2 = 0 ∧
    (∃ s2 e2, demoEulerEngine.update demoStateEven = .ok (s2, e2)
      ∧ s2.state_vector
          = (eulerStagesSpec demoEulerEngine
              (demoStateEven.state_vector.take
                (demoStateEven.state_vector.length / 2))
              (demoStateEven.state_vector.drop
                (demoStateEven.state_vector.length / 2))).1
            ++ (eulerStagesSpec demoEulerEngine
              (demoStateEven.state_vector.take
                (demoStateEven.state_vector.length / 2))
              (demoStateEven.state_vector.drop
                (demoStateEven.state_vector.length / 2))).2.1
      ∧ e2.rng
          = (eulerStagesSpec demoEulerEngine
              (demoStateEven.state_vector.take
                (demoStateEven.state_vector.length / 2))
              (demoStateEven.state_vector.drop
                (demoStateEven.state_vector.length / 2))).2.2
      ∧ e2.time = demoEulerEngine.time + demoEulerEngine.dt
      ∧ e2.use_strang = demoEulerEngine.use_strang) :=
  ⟨rfl, by simp [demoStateEven],
   euler_mode_stage_sequence demoEulerEngine demoStateEven rfl
     (by simp [demoStateEven])⟩

/-! ## Heap-level facts about `updateImp` -/

/-- Effects of `updateImp` on the odd-length contract violation: the
error propagates, only the fresh (unreachable) copy cell was allocated,
every existing state cell and every engine cell is untouched. -/
theorem updateImp_odd_facts (h : Heap) (er sr : ℕ)
    (hodd : (h.states sr).state_vector.length % 2 ≠ 0) :
    (updateImp er sr h).2
        = .error (oddLengthMsg (h.states sr).state_vector.length)
  ∧ (updateImp er sr h).1.nextS = h.nextS + 1
  ∧ (updateImp er sr h).1.nextE = h.nextE
  ∧ (∀ r, r ≠ h.nextS → (updateImp er sr h).1.states r = h.states r)
  ∧ (∀ q, (updateImp er sr h).1.engines q = h.engines q) := by
  have hupd := update_odd_eq (h.engines er) (h.states sr) hodd
  refine ⟨?_, ?_, ?_, fun r hr => ?_, fun q => ?_⟩
  · simp [updateImp, hupd, Heap.allocState, GlobalState.copy]
  · simp [updateImp, hupd, Heap.allocState, GlobalState.copy]
  · simp [updateImp, hupd, Heap.allocState, GlobalState.copy]
  · simp [updateImp, hupd, Heap.allocState, GlobalState.copy, hr]
  · simp [updateImp, hupd, Heap.allocState, GlobalState.copy]

/-- Effects of a successful `updateImp`: the fresh reference `h.nextS` is
returned and holds `updResult`'s state, the engine cell holds
`updResult`'s engine, and every other cell is untouched. -/
theorem updateImp_even_facts (h : Heap) (er sr : ℕ)
    (heven : (h.states sr).state_vector.length % 2 = 0) :
    (updateImp er sr h).2 = .ok h.nextS
  ∧ (updateImp er sr h).1.nextS = h.nextS + 1
  ∧ (updateImp er sr h).1.nextE = h.nextE
  ∧ (∀ r, r ≠ h.nextS → (updateImp er sr h).1.states r = h.states r)
  ∧ (updateImp er sr h).1.states h.nextS
      = ((h.engines er).updResult (h.states sr)).1
  ∧ (∀ q, q ≠ er → (updateImp er sr h).1.engines q = h.engines q)
  ∧ (updateImp er sr h).1.engines er
      = ((h.engines er).updResult (h.states sr)).2 := by
  have hupd : (h.engines er).update (h.states sr)
      = .ok (((h.engines er).updResult (h.states sr)).1,
             ((h.engines er).updResult (h.states sr)).2) :=
    update_even_eq (h.engines er) (h.states sr) heven
  refine ⟨?_, ?_, ?_, fun r hr => ?_, ?_, fun q hq => ?_, ?_⟩
  · simp [updateImp, hupd, Heap.allocState, Heap.writeState, Heap.writeEngine,
      GlobalState.copy]
  · simp [updateImp, hupd, Heap.allocState, Heap.writeState, Heap.writeEngine,
      GlobalState.copy]
  · simp [updateImp, hupd, Heap.allocState, Heap.writeState, Heap.writeEngine,
      GlobalState.copy]
  · simp [updateImp, hupd, Heap.allocState, Heap.writeState, Heap.writeEngine,
      GlobalState.copy, hr]
  · simp [updateImp, hupd, Heap.allocState, Heap.writeState, Heap.writeEngine,
      GlobalState.copy]
  · simp [updateImp, hupd, Heap.allocState, Heap.writeState, Heap.writeEngine,
      GlobalState.copy, hq]
  · simp [updateImp, hupd, Heap.allocState, Heap.writeState, Heap.writeEngine,
      GlobalState.copy]

/-- C1: an odd-length `state_vector` makes `update` raise the
even-length contract `ValueError` with no layer invoked and no numeric
work — the outcome is unchanged under replacing the engine (hence its
force/gauge/thermo layers) — and the vector is never truncated or
padded: every existing state cell and every engine cell is untouched. -/
theorem update_odd_length_contract (h : Heap) (er sr r re : ℕ)
    (hodd : (h.states sr).state_vector.length % 2 = 1)
    (hr : r < h.nextS) :
    (updateImp er sr h).2
        = .error (oddLengthMsg (h.states sr).state_vector.length)
    ∧ (updateImp er sr h).1.states r = h.states r
    ∧ (updateImp er sr h).1.engines re = h.engines re
    ∧ ∀ e2 : PotentialFieldEngine,
        (updateImp er sr (h.writeEngine er e2)).2 = (updateImp er sr h).2 := by
  have hodd' : (h.states sr).state_vector.length % 2 ≠ 0 := by omega
  obtain ⟨h1, h2, h3, h4, h5⟩ := updateImp_odd_facts h er sr hodd'
  refine ⟨h1, h4 r (Nat.ne_of_lt hr), h5 re, fun e2 => ?_⟩
  have hodd2 : ((h.writeEngine er e2).states sr).state_vector.length % 2 ≠ 0 := by
    simpa [Heap.writeEngine] using hodd'
  obtain ⟨g1, -, -, -, -⟩ := updateImp_odd_facts (h.writeEngine er e2) er sr hodd2
  rw [g1, h1]
  simp [Heap.writeEngine]

/-- C1 witness at a concrete input: the demo heap's cell 0 holds the
odd-length state `[1, 2, 3]`. -/
theorem update_odd_length_contract_witness :
    (demoHeap.states 0).state_vector.length % 2 = 1 ∧ 0 < demoHeap.nextS ∧
    ((updateImp 0 0 demoHeap).2
        = .error (oddLengthMsg (demoHeap.states 0).state_vector.length)
    ∧ (updateImp 0 0 demoHeap).1.states 0 = demoHeap.states 0
    ∧ (updateImp 0 0 demoHeap).1.engines 0 = demoHeap.engines 0
    ∧ ∀ e2 : PotentialFieldEngine,
        (updateImp 0 0 (demoHeap.writeEngine 0 e2)).2 = (updateImp 0 0 demoHeap).2) :=
  ⟨by simp [demoHeap, demoStateOdd], by simp [demoHeap],
   update_odd_length_contract demoHeap 0 0 0 0
     (by simp [demoHeap, demoStateOdd]) (by simp [demoHeap])⟩

/-- C9: on a valid even-length state, `update` returns a newly
constructed state (the fresh reference `h.nextS`), the caller's state
cell and every other existing state cell are untouched, and the new cell
holds exactly the computed result; on the contract failure the operation
aborts with no write to any existing state or engine cell. -/
theorem update_returns_fresh_copy (h : Heap) (er sr r : ℕ)
    (hsr : sr < h.nextS) (hr : r < h.nextS) :
    ((h.states sr).state_vector.length % 2 = 0 →
       (updateImp er sr h).2 = .ok h.nextS
       ∧ (updateImp er sr h).1.states sr = h.states sr
       ∧ (updateImp er sr h).1.states r = h.states r
       ∧ (updateImp er sr h).1.states h.nextS
           = ((h.engines er).updResult (h.states sr)).1
       ∧ (updateImp er sr h).1.engines er
           = ((h.engines er).updResult (h.states sr)).2
       ∧ (updateImp er sr h).1.nextS = h.nextS + 1)
  ∧ ((h.states sr).state_vector.length % 2 ≠ 0 →
       (∃ msg, (updateImp er sr h).2 = Except.error msg)
       ∧ (updateImp er sr h).1.states sr = h.states sr
       ∧ (updateImp er sr h).1.states r = h.states r
       ∧ (updateImp er sr h).1.engines er = h.engines er) := by
  constructor
  · intro heven
    obtain ⟨f1, f2, f3, f4, f5, f6, f7⟩ := updateImp_even_facts h er sr heven
    exact ⟨f1, f4 sr (Nat.ne_of_lt hsr), f4 r (Nat.ne_of_lt hr), f5, f7, f2⟩
  · intro hodd
    obtain ⟨f1, f2, f3, f4, f5⟩ := updateImp_odd_facts h er sr hodd
    exact ⟨⟨_, f1⟩, f4 sr (Nat.ne_of_lt hsr), f4 r (Nat.ne_of_lt hr), f5 er⟩

/-- C9 witness at a concrete input: the demo heap's cell 1 holds the
even-length state `[1, 0, 0, 0]`, cell 0 is a bystander. -/
theorem update_returns_fresh_copy_witness :
    1 < demoHeap.nextS ∧ 0 < demoHeap.nextS ∧
    (((demoHeap.states 1).state_vector.length % 2 = 0 →
       (updateImp 0 1 demoHeap).2 = .ok demoHeap.nextS
       ∧ (updateImp 0 1 demoHeap).1.states 1 = demoHeap.states 1
       ∧ (updateImp 0 1 demoHeap).1.states 0 = demoHeap.states 0
       ∧ (updateImp 0 1 demoHeap).1.states demoHeap.nextS
           = ((demoHeap.engines 0).updResult (demoHeap.states 1)).1
       ∧ (updateImp 0 1 demoHeap).1.engines 0
           = ((demoHeap.engines 0).updResult (demoHeap.states 1)).2
       ∧ (updateImp 0 1 demoHeap).1.nextS = demoHeap.nextS + 1)
  ∧ ((demoHeap.states 1).state_vector.length % 2 ≠ 0 →
       (∃ msg, (updateImp 0 1 demoHeap).2 = Except.error msg)
       ∧ (updateImp 0 1 demoHeap).1.states 1 = demoHeap.states 1
       ∧ (updateImp 0 1 demoHeap).1.states 0 = demoHeap.states 0
       ∧ (updateImp 0 1 demoHeap).1.engines 0 = demoHeap.engines 0)) :=
  ⟨by simp [demoHeap], by simp [demoHeap],
   update_returns_fresh_copy demoHeap 0 1 0
     (by simp [demoHeap]) (by simp [demoHeap])⟩

/-- The conservation loop refines the pure `energiesRun` of the engine
value held in its engine cell, touches no pre-existing state cell and no
other engine cell, and appends the collected energies to its
accumulator. -/
theorem conservationLoop_spec (er : ℕ) (k : ℕ) :
    ∀ (sr : ℕ) (h : Heap) (acc : List ℝ),
      (∀ r, r < h.nextS →
        (conservationLoop er sr k h acc).1.states r = h.states r)
    ∧ (∀ q, q ≠ er →
        (conservationLoop er sr k h acc).1.engines q = h.engines q)
    ∧ h.nextS ≤ (conservationLoop er sr k h acc).1.nextS
    ∧ (conservationLoop er sr k h acc).1.nextE = h.nextE
    ∧ (∀ msg, energiesRun (h.engines er) (h.states sr) k = .error msg →
        (conservationLoop er sr k h acc).2 = .error msg)
    ∧ (∀ l, energiesRun (h.engines er) (h.states sr) k = .ok l →
        ∃ srf, (conservationLoop er sr k h acc).2 = .ok (srf, acc ++ l)) := by
  induction k with
  | zero =>
      intro sr h acc
      refine ⟨fun r _ => rfl, fun q _ => rfl, le_refl _, rfl, ?_, ?_⟩
      · intro msg hmsg
        simp [energiesRun] at hmsg
      · intro l hl
        simp [energiesRun] at hl
        exact ⟨sr, by simp [conservationLoop, ← hl]⟩
  | succ k ih =>
      intro sr h acc
      by_cases hpar : (h.states sr).state_vector.length % 2 = 0
      · obtain ⟨f1, f2, f3, f4, f5, f6, f7⟩ := updateImp_even_facts h er sr hpar
        have hupd : (h.engines er).update (h.states sr)
            = .ok (((h.engines er).updResult (h.states sr)).1,
                   ((h.engines er).updResult (h.states sr)).2) :=
          update_even_eq (h.engines er) (h.states sr) hpar
        rcases hstep : updateImp er sr h with ⟨h', res⟩
        simp only [hstep] at f1 f2 f3 f4 f5 f6 f7
        subst f1
        have hloop : conservationLoop er sr (k + 1) h acc
            = conservationLoop er h.nextS k h'
                (acc ++ [(h'.states h.nextS).energy]) := by
          simp [conservationLoop, hstep]
        obtain ⟨i1, i2, i3, i4, i5, i6⟩ :=
          ih h.nextS h' (acc ++ [(h'.states h.nextS).energy])
        have hengine : h'.engines er
            = ((h.engines er).updResult (h.states sr)).2 := f7
        have hstate : h'.states h.nextS
            = ((h.engines er).updResult (h.states sr)).1 := f5
        have hrun : energiesRun (h.engines er) (h.states sr) (k + 1)
            = (energiesRun (h'.engines er) (h'.states h.nextS) k).map
                (fun l => (h'.states h.nextS).energy :: l) := by
          rw [hengine, hstate]
          simp [energiesRun, hupd]
        refine ⟨?_, ?_, ?_, ?_, ?_, ?_⟩
        · intro r hr
          rw [hloop, i1 r (by omega), f4 r (by omega)]
        · intro q hq
          rw [hloop, i2 q hq, f6 q hq]
        · rw [hloop]
          calc h.nextS ≤ h'.nextS := by omega
            _ ≤ _ := i3
        · rw [hloop, i4, f3]
        · intro msg hmsg
          rw [hrun] at hmsg
          rw [hloop]
          cases he : energiesRun (h'.engines er) (h'.states h.nextS) k with
          | error m2 =>
              rw [he] at hmsg
              simp [Except.map] at hmsg
              rw [hmsg] at he
              exact i5 msg he
          | ok l2 =>
              rw [he] at hmsg
              simp [Except.map] at hmsg
        · intro l hl
          rw [hrun] at hl
          rw [hloop]
          cases he : energiesRun (h'.engines er) (h'.states h.nextS) k with
          | error m2 =>
              rw [he] at hl
              simp [Except.map] at hl
          | ok l2 =>
              rw [he] at hl
              simp [Except.map] at hl
              obtain ⟨srf, hsrf⟩ := i6 l2 he
              refine ⟨srf, ?_⟩
              rw [hsrf, ← hl]
              simp
      · obtain ⟨f1, f2, f3, f4, f5⟩ := updateImp_odd_facts h er sr hpar
        have hupd := update_odd_eq (h.engines er) (h.states sr) hpar
        rcases hstep : updateImp er sr h with ⟨h', res⟩
        simp only [hstep] at f1 f2 f3 f4 f5
        subst f1
        have hloop : conservationLoop er sr (k + 1) h acc
            = (h', .error (oddLengthMsg (h.states sr).state_vector.length)) := by
          simp [conservationLoop, hstep]
        have hrun : energiesRun (h.engines er) (h.states sr) (k + 1)
            = .error (oddLengthMsg (h.states sr).state_vector.length) := by
          simp [energiesRun, hupd]
        refine ⟨?_, ?_, ?_, ?_, ?_, ?_⟩
        · intro r hr
          rw [hloop]
          exact f4 r (by omega)
        · intro q _
          rw [hloop]
          exact f5 q
        · rw [hloop]
          show h.nextS ≤ h'.nextS
          omega
        · rw [hloop]; exact f3
        · intro msg hmsg
          rw [hrun] at hmsg
          rw [hloop]
          simp at hmsg
          rw [hmsg]
        · intro l hl
          rw [hrun] at hl
          simp at hl

/-- C8: `check_conservation` leaves every existing state cell and engine
cell of the original heap unchanged (it operates only on disposable
clones), and its verdict is exactly the pure `energiesRun` of the
`conservativeClone` of the engine — thermostat replaced by `NullThermo`,
force layers reduced to the gradient ones — started from a copy of the
initial state, passing iff `max|E_t - E₀|`, relative to `|E₀|` when
`|E₀| > 1e-12` and absolute otherwise, stays below 0.01. -/
theorem check_conservation_frame_and_verdict (h : Heap) (er sr n r q : ℕ)
    (hr : r < h.nextS) (hq : q < h.nextE) :
    (TrunkChecker.check_conservation er sr n h).1.states r = h.states r
  ∧ (TrunkChecker.check_conservation er sr n h).1.engines q = h.engines q
  ∧ (∀ msg, energiesRun (conservativeClone (h.engines er)) (h.states sr) n
        = .error msg →
      (TrunkChecker.check_conservation er sr n h).2 = .error msg)
  ∧ (∀ l, energiesRun (conservativeClone (h.engines er)) (h.states sr) n
        = .ok l →
      (TrunkChecker.check_conservation er sr n h).2
        = .ok (driftResult (h.states sr).energy ((h.states sr).energy :: l)))
  ∧ (∀ l cr, energiesRun (conservativeClone (h.engines er)) (h.states sr) n
        = .ok l →
      (TrunkChecker.check_conservation er sr n h).2 = .ok cr →
      (cr.pass = true ↔
        (if 1e-12 < |(h.states sr).energy| then
          ((((h.states sr).energy :: l).map
             (fun En => |En - (h.states sr).energy|)).foldl max 0)
            / |(h.states sr).energy|
         else
          (((h.states sr).energy :: l).map
             (fun En => |En - (h.states sr).energy|)).foldl max 0) < 0.01)) := by
  have hH2s : (((h.allocEngine (conservativeClone (h.engines er))).2.allocState
      ((h.states sr).copy)).2.states h.nextS) = h.states sr := by
    simp [Heap.allocEngine, Heap.allocState, GlobalState.copy]
  have hH2olds : ∀ r2, r2 ≠ h.nextS →
      (((h.allocEngine (conservativeClone (h.engines er))).2.allocState
        ((h.states sr).copy)).2.states r2) = h.states r2 := by
    intro r2 hr2
    simp [Heap.allocEngine, Heap.allocState, GlobalState.copy, hr2]
  have hH2eng : ∀ q2, q2 ≠ h.nextE →
      (((h.allocEngine (conservativeClone (h.engines er))).2.allocState
        ((h.states sr).copy)).2.engines q2) = h.engines q2 := by
    intro q2 hq2
    simp [Heap.allocEngine, Heap.allocState, hq2]
  have hH2engc : (((h.allocEngine (conservativeClone (h.engines er))).2.allocState
      ((h.states sr).copy)).2.engines h.nextE) = conservativeClone (h.engines er) := by
    simp [Heap.allocEngine, Heap.allocState]
  have hH2nextS : (((h.allocEngine (conservativeClone (h.engines er))).2.allocState
      ((h.states sr).copy)).2.nextS) = h.nextS + 1 := by
    simp [Heap.allocEngine, Heap.allocState]
  obtain ⟨L1, L2, L3, L4, L5, L6⟩ :=
    conservationLoop_spec h.nextE n h.nextS
      (((h.allocEngine (conservativeClone (h.engines er))).2.allocState
        ((h.states sr).copy)).2)
      [(((h.allocEngine (conservativeClone (h.engines er))).2.allocState
        ((h.states sr).copy)).2.states h.nextS).energy]
  rcases hres : conservationLoop h.nextE h.nextS n
      (((h.allocEngine (conservativeClone (h.engines er))).2.allocState
        ((h.states sr).copy)).2)
      [(((h.allocEngine (conservativeClone (h.engines er))).2.allocState
        ((h.states sr).copy)).2.states h.nextS).energy] with ⟨h3, res⟩
  simp only [hres] at L1 L2 L3 L4 L5 L6
  rw [hH2engc, hH2s] at L5 L6
  have hdef : TrunkChecker.check_conservation er sr n h
      = (match conservationLoop h.nextE h.nextS n
           (((h.allocEngine (conservativeClone (h.engines er))).2.allocState
             ((h.states sr).copy)).2)
           [(((h.allocEngine (conservativeClone (h.engines er))).2.allocState
             ((h.states sr).copy)).2.states h.nextS).energy] with
         | (h3, .error msg) => (h3, .error msg)
         | (h3, .ok p) => (h3, .ok (driftResult
             ((((h.allocEngine (conservativeClone (h.engines er))).2.allocState
               ((h.states sr).copy)).2.states h.nextS).energy) p.2))) := rfl
  rw [hres] at hdef
  have hready1 : (TrunkChecker.check_conservation er sr n h).1 = h3 := by
    rw [hdef]; cases res <;> rfl
  have hready2 : ∀ msg, res = .error msg →
      (TrunkChecker.check_conservation er sr n h).2 = .error msg := by
    intro msg hmsg
    rw [hdef, hmsg]
  have hready3 : ∀ p, res = .ok p →
      (TrunkChecker.check_conservation er sr n h).2
        = .ok (driftResult
            ((((h.allocEngine (conservativeClone (h.engines er))).2.allocState
              ((h.states sr).copy)).2.states h.nextS).energy) p.2) := by
    intro p hp
    rw [hdef, hp]
  refine ⟨?_, ?_, ?_, ?_, ?_⟩
  · rw [hready1, L1 r (by omega), hH2olds r (by omega)]
  · rw [hready1, L2 q (by omega), hH2eng q (by omega)]
  · intro msg hmsg
    exact hready2 msg (L5 msg hmsg)
  · intro l hl
    obtain ⟨srf, hsrf⟩ := L6 l hl
    rw [hready3 _ hsrf, hH2s]
    simp
  · intro l cr hl hcr
    obtain ⟨srf, hsrf⟩ := L6 l hl
    have h4 := hready3 _ hsrf
    rw [hH2s] at h4
    simp only [List.singleton_append] at h4
    rw [h4] at hcr
    injection hcr with h5
    rw [← h5]
    simp [driftResult]

/-- C8 witness at a concrete input: the demo heap with bystander state
cell 0 and engine cell 0, one conservation step from state cell 1. -/
theorem check_conservation_frame_and_verdict_witness :
    0 < demoHeap.nextS ∧ 0 < demoHeap.nextE ∧
    ((TrunkChecker.check_conservation 0 1 1 demoHeap).1.states 0
        = demoHeap.states 0
  ∧ (TrunkChecker.check_conservation 0 1 1 demoHeap).1.engines 0
        = demoHeap.engines 0
  ∧ (∀ msg, energiesRun (conservativeClone (demoHeap.engines 0))
        (demoHeap.states 1) 1 = .error msg →
      (TrunkChecker.check_conservation 0 1 1 demoHeap).2 = .error msg)
  ∧ (∀ l, energiesRun (conservativeClone (demoHeap.engines 0))
        (demoHeap.states 1) 1 = .ok l →
      (TrunkChecker.check_conservation 0 1 1 demoHeap).2
        = .ok (driftResult (demoHeap.states 1).energy
            ((demoHeap.states 1).energy :: l)))
  ∧ (∀ l cr, energiesRun (conservativeClone (demoHeap.engines 0))
        (demoHeap.states 1) 1 = .ok l →
      (TrunkChecker.check_conservation 0 1 1 demoHeap).2 = .ok cr →
      (cr.pass = true ↔
        (if 1e-12 < |(demoHeap.states 1).energy| then
          ((((demoHeap.states 1).energy :: l).map
             (fun En => |En - (demoHeap.states 1).energy|)).foldl max 0)
            / |(demoHeap.states 1).energy|
         else
          (((demoHeap.states 1).energy :: l).map
             (fun En => |En - (demoHeap.states 1).energy|)).foldl max 0) < 0.01))) :=
  ⟨by simp [demoHeap], by simp [demoHeap],
   check_conservation_frame_and_verdict demoHeap 0 1 1 0 0
     (by simp [demoHeap]) (by simp [demoHeap])⟩
